import Mathlib

/-!
Verification of the library-chatbot dialogue pipeline
(`app/models/dialog_manager.py`, `app/models/rule_engine.py`,
`app/models/nlp_engine.py`, `app/models/response_generator.py`).

Python strings are modelled as lists of Unicode code points (`List Nat`)
where code-point-level fidelity matters (the sanitization stage can see
lone surrogates), and as `List Char` elsewhere.  Confidence values are
modelled as exact rationals.  Dictionaries with a fixed key set are
modelled as structures; values read with `dict.get` default are modelled
with `Option`.  Calls into collaborators that can raise are modelled in
the `Except` monad.
-/

namespace LibChat

/-! ## Python string primitives -/

/-- Python `s.replace(p, r)` for a nonempty pattern `p`: a left-to-right
scan replacing non-overlapping occurrences, never rescanning replacement
text.  (All patterns in the source are nonempty; for `p = []` this model
is the identity.) -/
def pyReplace (p r : List Nat) : List Nat → List Nat
  | [] => []
  | c :: s =>
    if p ≠ [] ∧ p.isPrefixOf (c :: s) then
      r ++ pyReplace p r (List.drop (p.length - 1) s)
    else
      c :: pyReplace p r s
termination_by s => s.length
decreasing_by
  · simp only [List.length_drop, List.length_cons]
    omega
  · simp only [List.length_cons]
    omega

/-- Sequential application of a replacement table, mirroring the
`for bad, good in table.items(): content = content.replace(bad, good)`
loops.  Python 3.7+ dict literals iterate in insertion order; a duplicated
key keeps its first position and its last value, which is already folded
into the concrete tables below. -/
def applyAll (ps : List (List Nat × List Nat)) (s : List Nat) : List Nat :=
  ps.foldl (fun t pr => pyReplace pr.1 pr.2 t) s

/-- Python `str.lower()`, restricted to the ASCII case mapping used by
every keyword in the source. -/
def pyLower (s : List Char) : List Char := s.map Char.toLower

/-- Contiguous-substring test (Python `needle in hay` on strings). -/
def subIn (needle : List Char) : List Char → Bool
  | [] => needle.isEmpty
  | c :: t => needle.isPrefixOf (c :: t) || subIn needle t

/-- Python `needle in hay` for a literal needle. -/
def inStr (needle : String) (hay : List Char) : Bool :=
  subIn needle.toList hay

/-- Python `any(w in hay for w in ws)`. -/
def anyWordIn (ws : List String) (hay : List Char) : Bool :=
  ws.any (fun w => inStr w hay)

/-- Number of tokens of Python `s.split()` (maximal runs of
non-whitespace characters). -/
def wsTokenCount (s : List Char) : Nat :=
  (s.foldl
    (fun (acc : Nat × Bool) c =>
      if c.isWhitespace then (acc.1, false)
      else if acc.2 then acc else (acc.1 + 1, true))
    (0, false)).1

/-- Code points of a Lean string literal, for `List Nat` texts. -/
def strCp (s : String) : List Nat := s.toList.map Char.toNat

/-! ## `ResponseGenerator._clean_unicode_content` tables
(`app/models/response_generator.py` lines 78-121).  The `replacements`
dict literal contains two duplicated keys (the two em/en-dash mojibake
entries collapse to one key, and the keys commented `à` and `í` collapse
to one key); per Python dict-literal semantics the key keeps its first
position and its last value. -/

def replacementsTable : List (List Nat × List Nat) :=
  [([0xe2, 0x20ac, 0xa2], [0x2022]),
   ([0xe2, 0x20ac, 0x22], [0x2013]),
   ([0xe2, 0x20ac, 0x2122], [0x27]),
   ([0xe2, 0x20ac, 0x2dc], [0x27]),
   ([0xe2, 0x20ac, 0x153], [0x22]),
   ([0xe2, 0x20ac], [0x22]),
   ([0xc3, 0xa9], [0xe9]),
   ([0xc3, 0xa8], [0xe8]),
   ([0xc3, 0xa2], [0xe2]),
   ([0xc3], [0xed]),
   ([0xc3, 0xb1], [0xf1]),
   ([0xc3, 0xb3], [0xf3]),
   ([0xc3, 0xba], [0xfa]),
   ([0xc3, 0xb6], [0xf6]),
   ([0xc3, 0xbc], [0xfc]),
   ([0xc3, 0x178], [0xdf]),
   ([0xc3, 0xa6], [0xe6]),
   ([0xc3, 0xb8], [0xf8]),
   ([0xc3, 0xa5], [0xe5])]

/-- Entries of `replacementsTable` before the single-code-point `0xc3`
entry. -/
def replacementsPre : List (List Nat × List Nat) :=
  [([0xe2, 0x20ac, 0xa2], [0x2022]),
   ([0xe2, 0x20ac, 0x22], [0x2013]),
   ([0xe2, 0x20ac, 0x2122], [0x27]),
   ([0xe2, 0x20ac, 0x2dc], [0x27]),
   ([0xe2, 0x20ac, 0x153], [0x22]),
   ([0xe2, 0x20ac], [0x22]),
   ([0xc3, 0xa9], [0xe9]),
   ([0xc3, 0xa8], [0xe8]),
   ([0xc3, 0xa2], [0xe2])]

/-- Entries of `replacementsTable` after the single-code-point `0xc3`
entry. -/
def replacementsPost : List (List Nat × List Nat) :=
  [([0xc3, 0xb1], [0xf1]),
   ([0xc3, 0xb3], [0xf3]),
   ([0xc3, 0xba], [0xfa]),
   ([0xc3, 0xb6], [0xf6]),
   ([0xc3, 0xbc], [0xfc]),
   ([0xc3, 0x178], [0xdf]),
   ([0xc3, 0xa6], [0xe6]),
   ([0xc3, 0xb8], [0xf8]),
   ([0xc3, 0xa5], [0xe5])]

/-- The `emoji_fixes` table: the dict keys are two-element lone-surrogate
sequences (Python string literals `📖`, `👋`). -/
def emojiFixesTable : List (List Nat × List Nat) :=
  [([0xd83d, 0xdcd6], [0x1f4da]),
   ([0xd83d, 0xdc4b], [0x1f44b])]

/-! ## `ResponseGenerator._clean_response` tables (lines 369-409). -/

def fixesTable : List (List Nat × List Nat) :=
  [([0xf0], [0x1f4da]),
   ([0xe2, 0xa2], [0x2022]),
   ([0xe2, 0x20ac, 0xa2], [0x2022]),
   ([0xf0, 0xa9], [0x1f44b]),
   ([0xf0, 0xac], [0x1f4d6]),
   ([0xe2], [0x2d])]

/-- Entries of `fixesTable` after its leading `0xf0` entry. -/
def fixesAfterF0 : List (List Nat × List Nat) :=
  [([0xe2, 0xa2], [0x2022]),
   ([0xe2, 0x20ac, 0xa2], [0x2022]),
   ([0xf0, 0xa9], [0x1f44b]),
   ([0xf0, 0xac], [0x1f4d6]),
   ([0xe2], [0x2d])]

/-- Entries of `fixesTable` before its trailing `0xe2` entry. -/
def fixesBeforeE2 : List (List Nat × List Nat) :=
  [([0xf0], [0x1f4da]),
   ([0xe2, 0xa2], [0x2022]),
   ([0xe2, 0x20ac, 0xa2], [0x2022]),
   ([0xf0, 0xa9], [0x1f44b]),
   ([0xf0, 0xac], [0x1f4d6])]

def commonMojibakeTable : List (List Nat × List Nat) :=
  [([0xe2, 0x80, 0x99], [0x27]),
   ([0xe2, 0x80, 0x9c], [0x22]),
   ([0xe2, 0x80, 0x9d], [0x22]),
   ([0xe2, 0x80, 0x93], [0x2013]),
   ([0xe2, 0x80, 0x94], [0x2014]),
   ([0xe2, 0x80, 0xa2], [0x2022]),
   ([0xe2, 0x80, 0xa6], [0x2026])]

/-- Lone UTF-16 surrogate code points: exactly what
`text.encode('utf-8', errors='ignore').decode('utf-8')` drops from a
Python string. -/
def isSurrogate (c : Nat) : Bool := decide (0xd800 ≤ c ∧ c ≤ 0xdfff)

/-- `ResponseGenerator._clean_unicode_content`. -/
def cleanUnicodeContent (content : List Nat) : List Nat :=
  if content = [] then content
  else applyAll emojiFixesTable (applyAll replacementsTable content)

/-- `ResponseGenerator._clean_response`: the sanitization stage run on
every generated response. -/
def cleanResponse (text : List Nat) : List Nat :=
  if text = [] then []
  else
    let t1 := cleanUnicodeContent text
    let t2 := applyAll fixesTable t1
    let t3 := applyAll commonMojibakeTable t2
    t3.filter (fun c => !isSurrogate c)

/-- A sanitized output: free of the code points `0xe2`, `0xc3`, `0xf0`
and of lone surrogates, which makes every replacement table a no-op. -/
def SanitizedOut (s : List Nat) : Prop :=
  0xe2 ∉ s ∧ 0xc3 ∉ s ∧ 0xf0 ∉ s ∧ ∀ c ∈ s, isSurrogate c = false

/-! ## `HybridNLPEngine._classify_intent_simple`
(`app/models/nlp_engine.py` lines 366-406) with the `library_intents`
table from `__init__` (lines 46-59). -/

def libraryIntents : List (String × List String) :=
  [("book_search", ["find", "search", "locate", "book", "textbook"]),
   ("library_hours", ["hour", "open", "close", "schedule", "time"]),
   ("book_availability", ["available", "availability", "in stock", "on shelf"]),
   ("book_renewal", ["renew", "extension", "prolong"]),
   ("book_reservation", ["reserve", "hold", "booking"]),
   ("borrowing_policy", ["policy", "rule", "limit", "fine", "how many", "how long"]),
   ("contact_info", ["contact", "phone", "email", "call", "address", "department"]),
   ("research_assistance",
    ["research", "journal", "article", "database", "citation", "paper", "literature"]),
   ("study_rooms", ["study room", "booking space", "reserve room"]),
   ("library_services", ["printing", "scanning", "workshop", "service"]),
   ("greeting", ["hello", "hi", "hey", "greetings", "morning", "afternoon", "evening"]),
   ("farewell", ["bye", "goodbye", "thank", "thanks"])]

/-- Score of one intent row: `+0.4` per keyword contained in the lowered
text. -/
def intentKeywordScore (kws : List String) (textLower : List Char) : ℚ :=
  kws.foldl (fun sc kw => if inStr kw textLower then sc + 0.4 else sc) 0

/-- The keyword loop: start from `('unknown', 0.3)` and keep any row
whose score strictly exceeds the running maximum. -/
def intentScan (textLower : List Char) : String × ℚ :=
  libraryIntents.foldl
    (fun acc row =>
      let sc := intentKeywordScore row.2 textLower
      if sc > acc.2 then (row.1, sc) else acc)
    ("unknown", 0.3)

/-- `HybridNLPEngine._classify_intent_simple`.  The override heuristics
for `hour`/`book` update the running best and fall through; the other
overrides return immediately. -/
def classifyIntentSimple (text : List Char) : String × ℚ :=
  if text = [] then ("unknown", 0)
  else
    let tl := pyLower text
    let s0 := intentScan tl
    if anyWordIn ["hour", "open", "close", "time"] tl ∧ inStr ("library hour") tl then
      ("library_hours", 0.95)
    else
      let s1 :=
        if anyWordIn ["hour", "open", "close", "time"] tl then
          ("library_hours", max s0.2 0.85)
        else s0
      if anyWordIn ["book", "find", "search"] tl ∧ inStr ("available") tl then
        ("book_availability", 0.9)
      else
        let s2 :=
          if anyWordIn ["book", "find", "search"] tl then
            ("book_search", max s1.2 0.8)
          else s1
        if anyWordIn ["renew"] tl then ("book_renewal", 0.9)
        else if anyWordIn ["reserve", "hold"] tl then ("book_reservation", 0.9)
        else if anyWordIn ["contact", "phone", "email"] tl then ("contact_info", 0.9)
        else if anyWordIn ["research", "citation", "paper"] tl then
          ("research_assistance", 0.85)
        else if anyWordIn
            ["hello", "hi", "hey", "greeting", "morning", "afternoon", "evening"] tl then
          ("greeting", 0.9)
        else (s2.1, min s2.2 0.95)

/-! ## `AdvancedRuleEngine` (`app/models/rule_engine.py`)

A compiled rule (an element of `self.compiled_patterns`, lines 106-118)
stores a *compiled* regex object under `pattern` plus `response`,
`priority` and `id`; the `keywords` and `conditions` keys of the raw rule
are not carried over.  The compiled regex is abstracted as its source
string together with its `search`/`groups` behaviour on a text. -/

structure RegexPat where
  src : List Char
  searchHit : List Char → Bool
  groupsOn : List Char → List (List Char)

structure CompiledRule where
  pattern : RegexPat
  response : List Char
  priority : Int
  id : List Char

/-- The value found under the `pattern` key of the dict handed to
`_calculate_rule_confidence`: a raw rule holds a string, a compiled rule
holds a compiled regex object. -/
inductive PatField
  | pstr (s : List Char)
  | pregex (p : RegexPat)

/-- Python truthiness of a `pattern` value: a string is truthy iff
nonempty; a compiled regex object is always truthy. -/
def patTruthy : PatField → Bool
  | .pstr s => !s.isEmpty
  | .pregex _ => true

/-- The dict shape `_calculate_rule_confidence` reads: the values under
the `pattern` and `keywords` keys, if present. -/
structure RuleView where
  pattern : Option PatField
  keywords : Option (List (List Char))

/-- Python `sum(1 for kw in keywords if kw and isinstance(kw, str) and
kw.lower() in text.lower())`. -/
def countMatchedKeywords (kws : List (List Char)) (text : List Char) : Nat :=
  (kws.filter (fun kw => !kw.isEmpty && subIn (pyLower kw) (pyLower text))).length

/-- `AdvancedRuleEngine._calculate_rule_confidence` (lines 216-248).
The third parameter is named `entities` in the source but receives the
*context* dict at the only live call site; it is modelled by its length
(`None` ↦ `none`). -/
def calcRuleConfidence (rule : RuleView) (text : List Char) (entities : Option Nat) : ℚ :=
  let b0 : ℚ := 0.7
  let b1 :=
    match rule.pattern with
    | some p =>
      if patTruthy p then
        match p with
        | .pstr s =>
          let t := if 3 ≤ wsTokenCount s then b0 + 0.1 else b0
          if !s.contains ('*') then t + 0.1 else t
        | .pregex _ => b0
      else b0
    | none => b0
  let b2 :=
    match entities with
    | some n => if n ≠ 0 then b1 + min ((n : ℚ) * 0.05) 0.2 else b1
    | none => b1
  let b3 :=
    match rule.keywords with
    | some kws =>
      if !kws.isEmpty then
        let m := countMatchedKeywords kws text
        if m ≠ 0 then b2 + min ((m : ℚ) * 0.05) 0.15 else b2
      else b2
    | none => b2
  min (max b3 0) 1

/-- The context dict as the rule engine reads it: its length (for
truthiness and the `len(entities)` boost), `user_type`,
`history_intents`, and the values `_handle_low_confidence` would read
under `score`/`confidence`. -/
structure CtxView where
  size : Nat
  userType : Option String
  historyIntents : List String
  score : Option ℚ
  confidence : Option ℚ

/-- Python truthiness of the optional context dict. -/
def ctxTruthy : Option CtxView → Bool
  | some c => c.size ≠ 0
  | none => false

/-- One entry of a rule's `conditions` list. -/
inductive RuleCond
  | timeBased (startHour endHour : Nat)
  | userType (required : Option String)
  | prerequisite (requiredIntent : Option String)

/-- `AdvancedRuleEngine._check_conditions` (lines 159-182). -/
def checkConditions (conds : List RuleCond) (nowHour : Nat) (ctx : Option CtxView) : Bool :=
  conds.all fun cond =>
    match cond with
    | .timeBased s e => decide (s ≤ nowHour) && decide (nowHour < e)
    | .userType req =>
      !(ctxTruthy ctx && ((ctx.map (·.userType)).getD none != req))
    | .prerequisite req =>
      !(ctxTruthy ctx &&
        !(match req with
          | some s => ((ctx.map (·.historyIntents)).getD []).contains s
          | none => false))

/-- The per-match dict built inside `AdvancedRuleEngine.match`
(lines 137-144). -/
structure MatchInfo where
  ruleId : List Char
  patternSrc : List Char
  responseTemplate : List Char
  priority : Int
  matchGroups : List (List Char)
  confidence : ℚ
deriving DecidableEq

def mkMatchInfo (r : CompiledRule) (text : List Char) (ctx : Option CtxView) : MatchInfo :=
  { ruleId := r.id
    patternSrc := r.pattern.src
    responseTemplate := r.response
    priority := r.priority
    matchGroups := r.pattern.groupsOn text
    confidence :=
      calcRuleConfidence ⟨some (.pregex r.pattern), none⟩ text (ctx.map (·.size)) }

/-- The `matches` list of `AdvancedRuleEngine.match`: compiled rules have
no `conditions` key, so `rule.get('conditions', [])` is always `[]`. -/
def matchCandidates (rules : List CompiledRule) (text : List Char) (nowHour : Nat)
    (ctx : Option CtxView) : List MatchInfo :=
  rules.filterMap fun r =>
    if r.pattern.searchHit text && checkConditions [] nowHour ctx then
      some (mkMatchInfo r text ctx)
    else none

/-- Python `max(xs, key=f)` on a nonempty list given as head and tail:
scans left to right, replacing the current best only on a strictly
greater key, so ties keep the first-encountered element. -/
def pyMaxBy {α : Type} (f : α → ℚ) : α → List α → α
  | a, [] => a
  | a, b :: l => if f b > f a then pyMaxBy f b l else pyMaxBy f a l

/-- The dict returned by `AdvancedRuleEngine.match` on success
(lines 149-155).  `response_data` is `_fill_template(best_match)`, and
`_fill_template` returns a non-string argument unchanged, so it is the
best match dict itself. -/
structure RuleMatchOut where
  rtype : String
  confidence : ℚ
  responseData : MatchInfo
  source : String
  matchedRule : List Char
deriving DecidableEq

/-- `AdvancedRuleEngine.match` (lines 128-157). -/
def ruleMatch (rules : List CompiledRule) (text : List Char) (nowHour : Nat)
    (ctx : Option CtxView) : Option RuleMatchOut :=
  match matchCandidates rules text nowHour ctx with
  | [] => none
  | m :: ms =>
    let best := pyMaxBy (·.confidence) m ms
    some
      { rtype := "rule_based"
        confidence := best.confidence
        responseData := best
        source := "rule_engine"
        matchedRule := best.ruleId }

/-- Modelled from the spec: the per-match confidence formula of section
4.2 — base 0.7, +0.1 if the pattern has at least 3 whitespace-separated
tokens, +0.1 if it contains no wildcard, +0.05 per matched entity capped
at 0.2, +0.05 per matched keyword capped at 0.15, clamped to [0, 1]. -/
def specRuleMatchConfidence (patternSrc : List Char)
    (matchedEntities matchedKeywords : Nat) : ℚ :=
  min (max ((0.7 : ℚ) + (if 3 ≤ wsTokenCount patternSrc then 0.1 else 0) +
      (if !patternSrc.contains ('*') then 0.1 else 0) +
      min ((matchedEntities : ℚ) * 0.05) 0.2 +
      min ((matchedKeywords : ℚ) * 0.05) 0.15) 0) 1

/-- The only confidence boost reachable through `match`: the `entities`
parameter receives the context dict, so a truthy context adds
`min(len(context) * 0.05, 0.2)`. -/
def ctxEntityBoost : Option CtxView → ℚ
  | some c => if c.size ≠ 0 then min ((c.size : ℚ) * 0.05) 0.2 else 0
  | none => 0

/-- A concrete compiled rule whose pattern source has three tokens and no
wildcard; the literal regex `library opening hours` searches a text
exactly when that substring occurs. -/
def crThreeTok : CompiledRule :=
  { pattern :=
      { src := ("library opening hours").toList
        searchHit := fun t => subIn ("library opening hours").toList t
        groupsOn := fun _ => [] }
    response := ("The library opens at 8 AM and closes at 10 PM.").toList
    priority := 1
    id := ("hours_rule").toList }

def crText : List Char := ("what are the library opening hours today").toList

/-! ## `DialogueManager` (`app/models/dialog_manager.py`) -/

/-- The `confidence` argument of `_handle_low_confidence`: the dialogue
manager passes either a float or (at the `clarification` fallback call
site) the whole context dict. -/
inductive ConfArg
  | num (q : ℚ)
  | dict (score confidence : Option ℚ)

/-- The `conf_value` extraction of `_handle_low_confidence`
(lines 184-192): a dict yields
`confidence.get('score', confidence.get('confidence', 0.0))`, a number
is converted by `float`. -/
def confValueOf : ConfArg → ℚ
  | .num q => q
  | .dict s c => s.getD (c.getD 0)

def rephraseResponses : List (List Char) :=
  [("I\x27m not quite sure what you mean. Could you rephrase that?").toList,
   ("I want to make sure I understand correctly. Could you say that differently?").toList,
   ("I\x27m having trouble understanding. Could you provide more details?").toList]

def suggestResponses : List (List Char) :=
  [("I think you might be asking about: (1) Library hours, (2) Finding books, or (3) Borrowing policies. Which one interests you?").toList,
   ("Could this be about: Library hours, Book search, or Borrowing information?").toList,
   ("I can help with library hours, book searches, or borrowing questions. Which would you like?").toList]

/-- The three confirmation f-strings, with the user message spliced in. -/
def confirmResponses (msg : List Char) : List (List Char) :=
  [("Just to make sure I understood: are you asking about \x27").toList ++ msg ++
     ("\x27?").toList,
   ("I think you\x27re asking about: ").toList ++ msg ++ (". Is that correct?").toList,
   ("Let me confirm: you want to know about \x27").toList ++ msg ++
     ("\x27, right?").toList]

/-- `random.choice` on a nonempty list, modelled by an externally
supplied index reduced modulo the length. -/
def pyChoice {α : Type} (l : List α) (rnd : Nat) (dflt : α) : α :=
  l.getD (rnd % l.length) dflt

def libraryTopics : List String :=
  ["Library hours and schedule",
   "Finding and searching for books",
   "Borrowing and returning books",
   "Library policies and rules",
   "Research assistance",
   "Using library computers"]

/-- `DialogueManager._get_clarification_questions` (lines 307-346).  The
initial low-confidence assignment of `questions` is dead in the source:
the subsequent if/elif/else chain always reassigns it. -/
def clarificationQuestions (userMessage : List Char) (confidence : ℚ) : List String :=
  let _dead := if confidence < 0.3 then libraryTopics.take 3 else []
  let userLower := pyLower userMessage
  if anyWordIn ["hour", "time", "open", "close"] userLower then
    ["Library opening hours", "Weekend hours", "Holiday schedule"]
  else if anyWordIn ["book", "find", "search", "look"] userLower then
    ["Search by title", "Search by author", "E-book availability"]
  else if anyWordIn ["borrow", "loan", "return", "due"] userLower then
    ["Borrowing period", "Late fees", "Renewing books"]
  else
    ["Library hours", "Book search", "Borrowing information"]

/-- The dict returned by `DialogueManager._handle_low_confidence`. -/
structure LowConfOut where
  response : List Char
  action : String
  confidence : ℚ
  processingMethod : String
  requiresClarification : Bool
  suggestedFollowUps : List String
  originalMessage : List Char

/-- `DialogueManager._handle_low_confidence` (lines 177-242). -/
def handleLowConfidence (userMessage : List Char) (confidence : ConfArg)
    (rnd : Nat) : LowConfOut :=
  let conf := confValueOf confidence
  if conf < 0.3 then
    { response := pyChoice rephraseResponses rnd []
      action := "clarify"
      confidence := conf
      processingMethod := "low_confidence_clarification"
      requiresClarification := true
      suggestedFollowUps := clarificationQuestions userMessage conf
      originalMessage := userMessage }
  else if conf < 0.5 then
    { response := pyChoice suggestResponses rnd []
      action := "suggest"
      confidence := conf
      processingMethod := "medium_confidence_suggestion"
      requiresClarification := true
      suggestedFollowUps := clarificationQuestions userMessage conf
      originalMessage := userMessage }
  else
    { response := pyChoice (confirmResponses userMessage) rnd []
      action := "confirm"
      confidence := conf
      processingMethod := "high_confidence_confirmation"
      requiresClarification := true
      suggestedFollowUps := clarificationQuestions userMessage conf
      originalMessage := userMessage }

def intentStateMap : List (String × String) :=
  [("greeting", "greeting"),
   ("farewell", "farewell"),
   ("book_search", "searching"),
   ("library_hours", "informing"),
   ("borrowing_info", "explaining"),
   ("research_help", "assisting"),
   ("unknown", "clarifying")]

/-- Python `dict.get(key, default)` on an association list. -/
def assocGetD (m : List (String × String)) (k : String) (d : String) : String :=
  ((m.find? (fun p => p.1 == k)).map (·.2)).getD d

/-- `DialogueManager._determine_state` (lines 348-394).  A history entry
is modelled by the value its dict holds under `intent`
(`entry.get('intent')`, possibly `None`). -/
def determineState (intent : String) (confidence : ℚ)
    (history : List (Option String)) : String :=
  if history.length = 0 then ("greeting")
  else if confidence < 0.3 then ("clarifying")
  else if confidence < 0.6 then ("confirming")
  else
    let lastIntent := history.getLast?.getD none
    if lastIntent == some intent then ("clarifying")
    else assocGetD intentStateMap intent ("conversing")

/-- The history-update step at the end of
`DialogueManager._log_interaction` (lines 453-472): append the user and
bot entries, then keep only the last 20.  Its result is the mutated
request-local context dict, which `process_message` returns to nobody —
the redis write (`_update_context`, line 101) has already happened when
`_log_interaction` runs, so this capped list is discarded. -/
def logHistoryAppend {α : Type} (history : Option (List α)) (userEntry botEntry : α) :
    List α :=
  let l := history.getD [] ++ [userEntry, botEntry]
  if 20 < l.length then l.drop (l.length - 20) else l

/-- The persisted conversation context, restricted to the two keys the
history handling touches: the `history` key, present as `[]` in the
`_get_context` default and never written by any update, and the
`conversation_history` key, absent until the first `_update_context`
write.  The other stored keys (`state`, `last_intent`, `last_entities`,
`entities`, `user_preferences`) never feed the history. -/
structure StoredCtx where
  history : List (List Char)
  conversationHistory : Option (List (List Char))
deriving DecidableEq

/-- The `_get_context` default for a fresh conversation (lines 160-165). -/
def defaultStoredCtx : StoredCtx :=
  { history := [], conversationHistory := none }

/-- The per-turn persisted effect of `process_message` on the stored
context: the only redis write is `_update_context` (line 101), whose
updates dict sets `conversation_history` to
`context.get('history', []) + [message]` and never touches the
`history` key.  The capped list `_log_interaction` builds later in the
turn mutates the request-local dict only, so it does not appear here. -/
def updateContextTurn (stored : StoredCtx) (message : List Char) : StoredCtx :=
  { stored with conversationHistory := some (stored.history ++ [message]) }

/-- The stored context after processing the given messages, in order, in
one conversation. -/
def storedAfterTurns (msgs : List (List Char)) : StoredCtx :=
  msgs.foldl updateContextTurn defaultStoredCtx

/-! ## `DialogueManager.process_message` and
`ResponseGenerator.generate` with failure semantics -/

/-- A raised Python exception. -/
structure PyExc where
  kind : String
  msg : String
deriving DecidableEq

/-- The extraction result `process_message` reads (the dict returned by
`HybridNLPEngine.process` always carries a float confidence). -/
structure NlpOut where
  intent : String
  confidence : ℚ
  entities : List (String × String)

/-- The fixed fallback string of the `except` branch of
`ResponseGenerator.generate` (line 193). -/
def generateFallbackReply : List Nat :=
  strCp ("I\x27m here to help with library services. How can I assist you today?")

/-- `ResponseGenerator.generate` (lines 168-193): the method dispatch and
template rendering are abstracted as their outcome `inner`; a successful
render is passed through `_clean_response`, any exception is caught and
replaced by the fixed fallback string.  `generate` itself never raises. -/
def rgGenerate (inner : Except PyExc (List Nat)) : List Nat :=
  match inner with
  | .ok resp => cleanResponse resp
  | .error _ => generateFallbackReply

/-- The dict `process_message` returns: either the early-returned
low-confidence dict or the normal structured result. -/
inductive PMOut
  | lowConf (l : LowConfOut)
  | normal (response : List Nat) (confidence : ℚ) (processingMethod : String)

def PMOut.processingMethod : PMOut → String
  | .lowConf l => l.processingMethod
  | .normal _ _ m => m

def PMOut.confidence : PMOut → ℚ
  | .lowConf l => l.confidence
  | .normal _ c _ => c

/-- `DialogueManager.process_message` (lines 25-155).  The collaborator
calls that can raise — `nlp_engine.process`, `rule_engine.match`, and the
response generator's internal dispatch — enter as `Except` outcomes;
`process_message` itself installs no handler, so those errors flow to the
caller via `bind`.  Context persistence, logging and the unused second
`generate` call do not affect the returned dict and are elided. -/
def processMessage (message : List Char) (nlpResult : Except PyExc NlpOut)
    (ruleResult : Except PyExc (Option RuleMatchOut))
    (innerGen : Except PyExc (List Nat)) (ctx : CtxView) (rnd : Nat) :
    Except PyExc PMOut :=
  match nlpResult with
  | .error e => .error e
  | .ok nlp =>
    if nlp.confidence < 0.5 then
      .ok (PMOut.lowConf (handleLowConfidence message (ConfArg.num nlp.confidence) rnd))
    else
      match ruleResult with
      | .error e => .error e
      | .ok ruleResponse =>
        let useRule :=
          match ruleResponse with
          | some rr => decide (rr.confidence > 0.9)
          | none => false
        let pm :=
          if useRule then ("rule_based")
          else if nlp.confidence > 0.7 then ("nlp_based")
          else ("clarification")
        let dataConf :=
          if useRule then
            match ruleResponse with
            | some rr => rr.confidence
            | none => 0
          else if nlp.confidence > 0.7 then nlp.confidence
          else
            (handleLowConfidence message (ConfArg.dict ctx.score ctx.confidence)
              rnd).confidence
        let finalResponse := rgGenerate innerGen
        .ok (PMOut.normal finalResponse dataConf pm)

/-! ## `AdvancedRuleEngine.__init__` (lines 8-33)

Every fallback branch calls `self._create_default_rules()`, a method that
is defined nowhere in the repository, so reaching any of those branches
raises `AttributeError` out of the constructor. -/

/-- The raw rules document, as `json.load` can shape it. -/
inductive RulesDoc
  | withRulesKey (rules : List RuleView)
  | directList (rules : List RuleView)
  | otherShape

def attributeErrorCreateDefaults : PyExc :=
  { kind := "AttributeError", msg := "_create_default_rules" }

/-- `AdvancedRuleEngine.__init__` up to the assignment of `self.rules`:
parameterised by whether the rules file exists and by the outcome of
reading it. -/
def ruleEngineInitRules (fileExists : Bool) (loadOutcome : Except PyExc RulesDoc) :
    Except PyExc (List RuleView) :=
  if fileExists then
    match loadOutcome with
    | .ok (.withRulesKey rs) => .ok rs
    | .ok (.directList rs) => .ok rs
    | .ok .otherShape => .error attributeErrorCreateDefaults
    | .error _ => .error attributeErrorCreateDefaults
  else .error attributeErrorCreateDefaults

/-! ## Lemmas about `pyReplace` and `applyAll` -/

theorem exists_append_of_isPrefixOf {p s : List Nat} (h : p.isPrefixOf s) :
    ∃ t, p ++ t = s := by
  have h2 := List.isPrefixOf_iff_prefix.1 h
  exact h2

theorem mem_of_isPrefixOf {p s : List Nat} {b : Nat} (h : p.isPrefixOf s) (hb : b ∈ p) :
    b ∈ s := by
  obtain ⟨t, ht⟩ := exists_append_of_isPrefixOf h
  exact ht ▸ List.mem_append_left t hb

theorem pyReplace_nil (p r : List Nat) : pyReplace p r [] = [] := by
  simp [pyReplace]

theorem pyReplace_cons (p r : List Nat) (c : Nat) (s : List Nat) :
    pyReplace p r (c :: s) =
      if p ≠ [] ∧ p.isPrefixOf (c :: s) then
        r ++ pyReplace p r (List.drop (p.length - 1) s)
      else
        c :: pyReplace p r s := by
  rw [pyReplace]

/-- Every code point of the output of `pyReplace` comes from the input
or from the replacement text. -/
theorem mem_pyReplace {p r : List Nat} {a : Nat} :
    ∀ (s : List Nat), a ∈ pyReplace p r s → a ∈ s ∨ a ∈ r
  | [], h => by simp [pyReplace_nil] at h
  | c :: s, h => by
    rw [pyReplace_cons] at h
    by_cases hc : p ≠ [] ∧ p.isPrefixOf (c :: s)
    · rw [if_pos hc] at h
      rcases List.mem_append.1 h with hr | hs
      · exact Or.inr hr
      · rcases mem_pyReplace _ hs with hs | hr
        · exact Or.inl (List.mem_cons_of_mem c (List.mem_of_mem_drop hs))
        · exact Or.inr hr
    · rw [if_neg hc] at h
      rcases List.mem_cons.1 h with rfl | hs
      · exact Or.inl (List.mem_cons_self a s)
      · rcases mem_pyReplace _ hs with hs | hr
        · exact Or.inl (List.mem_cons_of_mem c hs)
        · exact Or.inr hr
termination_by s => s.length
decreasing_by
  · simp only [List.length_drop, List.length_cons]
    omega
  · simp only [List.length_cons]
    omega

/-- If some code point of the pattern does not occur in the text, the
replacement is the identity. -/
theorem pyReplace_eq_self {p r : List Nat} {b : Nat} (hb : b ∈ p) :
    ∀ (s : List Nat), b ∉ s → pyReplace p r s = s
  | [], _ => pyReplace_nil p r
  | c :: s, hs => by
    have htail : b ∉ s := fun h => hs (List.mem_cons_of_mem c h)
    rw [pyReplace_cons, if_neg, pyReplace_eq_self hb s htail]
    rintro ⟨-, hpre⟩
    exact hs (mem_of_isPrefixOf hpre hb)

/-- Replacing all occurrences of a single code point removes it, provided
the replacement text does not reintroduce it. -/
theorem not_mem_pyReplace_single {c : Nat} {r : List Nat} (hc : c ∉ r) :
    ∀ (s : List Nat), c ∉ pyReplace [c] r s
  | [] => by simp [pyReplace_nil]
  | d :: s => by
    rw [pyReplace_cons]
    by_cases hd : d = c
    · subst hd
      rw [if_pos]
      · intro h
        rcases List.mem_append.1 h with h | h
        · exact hc h
        · simp only [List.length_cons, List.length_nil, Nat.sub_self, List.drop_zero] at h
          exact not_mem_pyReplace_single hc s h
      · exact ⟨by simp, by simp [List.isPrefixOf]⟩
    · rw [if_neg]
      · intro h
        rcases List.mem_cons.1 h with h | h
        · exact hd h.symm
        · exact not_mem_pyReplace_single hc s h
      · rintro ⟨-, hpre⟩
        obtain ⟨t, ht⟩ := exists_append_of_isPrefixOf hpre
        simp only [List.cons_append, List.nil_append] at ht
        exact hd (List.cons.inj ht).1.symm

theorem applyAll_nil (s : List Nat) : applyAll [] s = s := rfl

theorem applyAll_cons (pr : List Nat × List Nat) (ps : List (List Nat × List Nat))
    (s : List Nat) : applyAll (pr :: ps) s = applyAll ps (pyReplace pr.1 pr.2 s) := rfl

theorem applyAll_append (ps qs : List (List Nat × List Nat)) (s : List Nat) :
    applyAll (ps ++ qs) s = applyAll qs (applyAll ps s) :=
  List.foldl_append _ _ _ _

theorem not_mem_applyAll {a : Nat} :
    ∀ (ps : List (List Nat × List Nat)) {s : List Nat}, a ∉ s →
      (∀ pr ∈ ps, a ∉ pr.2) → a ∉ applyAll ps s
  | [], _, hs, _ => hs
  | pr :: ps, s, hs, hr => by
    rw [applyAll_cons]
    refine not_mem_applyAll ps ?_ (fun q hq => hr q (List.mem_cons_of_mem pr hq))
    intro h
    rcases mem_pyReplace _ h with h | h
    · exact hs h
    · exact hr pr (List.mem_cons_self pr ps) h

theorem applyAll_eq_self {bad : List Nat} :
    ∀ (ps : List (List Nat × List Nat)) {s : List Nat},
      (∀ pr ∈ ps, ∃ b ∈ pr.1, b ∈ bad) → (∀ b ∈ bad, b ∉ s) → applyAll ps s = s
  | [], _, _, _ => rfl
  | pr :: ps, s, hps, hs => by
    obtain ⟨b, hbp, hbbad⟩ := hps pr (List.mem_cons_self pr ps)
    rw [applyAll_cons, pyReplace_eq_self hbp s (hs b hbbad)]
    exact applyAll_eq_self ps (fun q hq => hps q (List.mem_cons_of_mem pr hq)) hs

/-! ## Idempotence of the sanitization stage (claim C4) -/

theorem replacements_split :
    replacementsTable = replacementsPre ++ ([0xc3], [0xed]) :: replacementsPost := rfl

theorem fixes_split_f0 : fixesTable = ([0xf0], [0x1f4da]) :: fixesAfterF0 := rfl

theorem fixes_split_e2 : fixesTable = fixesBeforeE2 ++ [([0xe2], [0x2d])] := rfl

theorem c3_not_mem_cleanUnicode (s : List Nat) : 0xc3 ∉ cleanUnicodeContent s := by
  by_cases h : s = []
  · simp [cleanUnicodeContent, h]
  · rw [cleanUnicodeContent, if_neg h]
    have h1 : (0xc3 : Nat) ∉ applyAll replacementsTable s := by
      rw [replacements_split, applyAll_append, applyAll_cons]
      exact not_mem_applyAll replacementsPost
        (not_mem_pyReplace_single (by decide) _) (by decide)
    exact not_mem_applyAll emojiFixesTable h1 (by decide)

theorem sanitizedOut_cleanResponse (s : List Nat) : SanitizedOut (cleanResponse s) := by
  by_cases h : s = []
  · simp [cleanResponse, h, SanitizedOut]
  · have hform : cleanResponse s =
        (applyAll commonMojibakeTable
          (applyAll fixesTable (cleanUnicodeContent s))).filter
            (fun c => !isSurrogate c) := by
      rw [cleanResponse, if_neg h]
    have he2 : (0xe2 : Nat) ∉ applyAll fixesTable (cleanUnicodeContent s) := by
      rw [fixes_split_e2, applyAll_append, applyAll_cons, applyAll_nil]
      exact not_mem_pyReplace_single (by decide) _
    have hf0 : (0xf0 : Nat) ∉ applyAll fixesTable (cleanUnicodeContent s) := by
      rw [fixes_split_f0, applyAll_cons]
      exact not_mem_applyAll fixesAfterF0
        (not_mem_pyReplace_single (by decide) _) (by decide)
    have hc3 : (0xc3 : Nat) ∉ applyAll fixesTable (cleanUnicodeContent s) :=
      not_mem_applyAll fixesTable (c3_not_mem_cleanUnicode s) (by decide)
    refine ⟨?_, ?_, ?_, ?_⟩
    · rw [hform]
      intro hmem
      exact not_mem_applyAll commonMojibakeTable he2 (by decide)
        (List.mem_of_mem_filter hmem)
    · rw [hform]
      intro hmem
      exact not_mem_applyAll commonMojibakeTable hc3 (by decide)
        (List.mem_of_mem_filter hmem)
    · rw [hform]
      intro hmem
      exact not_mem_applyAll commonMojibakeTable hf0 (by decide)
        (List.mem_of_mem_filter hmem)
    · rw [hform]
      intro c hmem
      have := (List.mem_filter.1 hmem).2
      simpa using this

theorem cleanResponse_of_sanitized {s : List Nat} (h : SanitizedOut s) :
    cleanResponse s = s := by
  by_cases hnil : s = []
  · simp [cleanResponse, hnil]
  · obtain ⟨he2, hc3, hf0, hsur⟩ := h
    have hbad : ∀ b ∈ ([0xe2, 0xc3, 0xf0, 0xd83d] : List Nat), b ∉ s := by
      intro b hb
      simp only [List.mem_cons, List.not_mem_nil, or_false] at hb
      rcases hb with rfl | rfl | rfl | rfl
      · exact he2
      · exact hc3
      · exact hf0
      · intro hm
        exact absurd (hsur _ hm) (by decide)
    have h1 : cleanUnicodeContent s = s := by
      rw [cleanUnicodeContent, if_neg hnil,
        @applyAll_eq_self [0xe2, 0xc3, 0xf0, 0xd83d] replacementsTable s (by decide) hbad,
        @applyAll_eq_self [0xe2, 0xc3, 0xf0, 0xd83d] emojiFixesTable s (by decide) hbad]
    have h2 : applyAll fixesTable s = s :=
      @applyAll_eq_self [0xe2, 0xc3, 0xf0, 0xd83d] fixesTable s (by decide) hbad
    have h3 : applyAll commonMojibakeTable s = s :=
      @applyAll_eq_self [0xe2, 0xc3, 0xf0, 0xd83d] commonMojibakeTable s (by decide) hbad
    have h4 : s.filter (fun c => !isSurrogate c) = s := by
      refine List.filter_eq_self.2 (fun a ha => ?_)
      rw [hsur a ha]
      rfl
    rw [cleanResponse, if_neg hnil]
    show (applyAll commonMojibakeTable
        (applyAll fixesTable (cleanUnicodeContent s))).filter
          (fun c => !isSurrogate c) = s
    rw [h1, h2, h3, h4]

/-- Claim C4: the output text-sanitization stage is idempotent — for
every string `x`, `sanitize(sanitize(x)) = sanitize(x)`, where `sanitize`
is `ResponseGenerator._clean_response` (mojibake replacement via
`_clean_unicode_content` and the local fix tables, followed by UTF-8
validation that strips lone surrogates). -/
theorem claim_C4_sanitize_idempotent :
    ∀ x : List Nat, cleanResponse (cleanResponse x) = cleanResponse x :=
  fun x => cleanResponse_of_sanitized (sanitizedOut_cleanResponse x)

/-! ## Claim C9: the simple intent classifier never exceeds 0.95 -/

set_option maxHeartbeats 1000000 in
/-- Claim C9 (implicit): for every input text,
`HybridNLPEngine._classify_intent_simple` returns a confidence of at most
0.95 — the accumulated keyword score is capped by `min(score, 0.95)` on
the final return, and every override heuristic returns at most 0.95. -/
theorem claim_C9_confidence_le :
    ∀ text : List Char, (classifyIntentSimple text).2 ≤ 0.95 := by
  intro text
  unfold classifyIntentSimple
  split
  · norm_num
  · dsimp only
    generalize pyLower text = tl
    generalize intentScan tl = s0
    obtain ⟨i0, c0⟩ := s0
    split_ifs <;> norm_num

/-! ## Claim C5: the conversation-history cap -/

theorem logHistoryAppend_length_le {α : Type} (h : Option (List α)) (u b : α) :
    (logHistoryAppend h u b).length ≤ 20 := by
  simp only [logHistoryAppend]
  split
  · simp only [List.length_drop]
    omega
  · omega

theorem foldl_updateContextTurn_history :
    ∀ (msgs : List (List Char)) (s : StoredCtx),
      (msgs.foldl updateContextTurn s).history = s.history
  | [], _ => rfl
  | m :: ms, s => (foldl_updateContextTurn_history ms (updateContextTurn s m)).trans rfl

/-- Claim C5 evaluated on the failing input: the only persisted history
write stores `context.get('history', []) + [message]` while the
`history` key is never written, so after every turn — in particular
after 25 turns in one conversation — the stored conversation history
holds exactly the one current message (length 1, not 20).  The 20-entry
cap inside `_log_interaction` does hold of its request-local update, but
that update is discarded, never stored. -/
theorem claim_C5_stored_history_length_one :
    (∀ (msgs : List (List Char)) (m : List Char),
      (storedAfterTurns (msgs ++ [m])).conversationHistory = some [m]) ∧
    (storedAfterTurns ((List.range 25).map (fun i => [Char.ofNat (97 + i)]))
        ).conversationHistory = some [[Char.ofNat 121]] ∧
    (∀ (h : Option (List (List Char))) (u b : List Char),
      (logHistoryAppend h u b).length ≤ 20) := by
  refine ⟨?_, ?_, fun h u b => logHistoryAppend_length_le h u b⟩
  · intro msgs m
    unfold storedAfterTurns
    rw [List.foldl_append]
    show some ((List.foldl updateContextTurn defaultStoredCtx msgs).history ++ [m]) =
      some [m]
    rw [foldl_updateContextTurn_history]
    rfl
  · decide

/-! ## Claim C7: state determination on a repeated intent -/

/-- Counterexample to claim C7: with a nonempty history whose last
intent equals the current intent `book_search` and confidence 0.4,
`_determine_state` returns `confirming`, not `clarifying` — the
confidence bands are checked before the repeated-intent rule. -/
theorem claim_C7_counterexample :
    determineState ("book_search") (0.4 : ℚ) [some ("book_search")] = "confirming" ∧
    determineState ("book_search") (0.4 : ℚ) [some ("book_search")] ≠ "clarifying" := by
  have h : determineState ("book_search") (0.4 : ℚ) [some ("book_search")] =
      "confirming" := by
    unfold determineState
    rw [if_neg (by simp), if_neg (by norm_num), if_pos (by norm_num)]
  refine ⟨h, ?_⟩
  rw [h]
  decide

/-- Claim C7 (amended): for every conversation with a nonempty history
whose previous entry has the current intent, the computed state is
`clarifying` whenever the confidence is below 0.3 or at least 0.6; for
confidence in [0.3, 0.6) the confidence bands fire first and the state is
`confirming` instead. -/
theorem claim_C7_amended :
    ∀ (intent : String) (conf : ℚ) (hist : List (Option String)),
      hist ≠ [] → hist.getLast?.getD none = some intent →
      (conf < 0.3 ∨ 0.6 ≤ conf) →
      determineState intent conf hist = "clarifying" := by
  intro intent conf hist hne hlast hconf
  have hlen : ¬hist.length = 0 := by
    simpa [List.length_eq_zero] using hne
  rcases hconf with h | h
  · simp only [determineState, if_neg hlen, if_pos h]
  · have h3 : ¬conf < 0.3 := by linarith
    have h6 : ¬conf < 0.6 := by linarith
    simp only [determineState, if_neg hlen, if_neg h3, if_neg h6, hlast, beq_self_eq_true,
      if_true]

/-- Witness for the amended claim C7 at concrete inputs. -/
theorem claim_C7_amended_witness :
    determineState ("book_search") (0.7 : ℚ) [some ("book_search")] = "clarifying" :=
  claim_C7_amended ("book_search") 0.7 [some ("book_search")] (by decide) (by decide)
    (Or.inr (by norm_num))

/-! ## Claim C2: confidence banding in the low-confidence handler -/

theorem pyChoice_mem {α : Type} (l : List α) (rnd : Nat) (d : α) (hl : l ≠ []) :
    pyChoice l rnd d ∈ l := by
  have hlen : 0 < l.length := List.length_pos.2 hl
  have hlt : rnd % l.length < l.length := Nat.mod_lt _ hlen
  simp only [pyChoice, List.getD_eq_getElem?_getD, List.getElem?_eq_getElem hlt,
    Option.getD_some]
  exact List.getElem_mem hlt

/-- Claim C2: in `_handle_low_confidence`, a numeric confidence strictly
below 0.3 always yields action `clarify` with a response drawn from the
rephrase set, and a confidence in [0.3, 0.5) always yields action
`suggest` with a response drawn from the topic-suggestion set (so 0.29
routes to `clarify` and 0.49 to `suggest`). -/
theorem claim_C2_confidence_bands :
    ∀ (msg : List Char) (conf : ℚ) (rnd : Nat),
      (conf < 0.3 →
        (handleLowConfidence msg (ConfArg.num conf) rnd).action = "clarify" ∧
        (handleLowConfidence msg (ConfArg.num conf) rnd).response ∈ rephraseResponses) ∧
      (0.3 ≤ conf → conf < 0.5 →
        (handleLowConfidence msg (ConfArg.num conf) rnd).action = "suggest" ∧
        (handleLowConfidence msg (ConfArg.num conf) rnd).response ∈ suggestResponses) := by
  intro msg conf rnd
  constructor
  · intro hlo
    constructor
    · simp only [handleLowConfidence, confValueOf, if_pos hlo]
    · simp only [handleLowConfidence, confValueOf, if_pos hlo]
      exact pyChoice_mem _ _ _ (by simp [rephraseResponses])
  · intro hge hlt
    have h3 : ¬conf < 0.3 := by linarith
    constructor
    · simp only [handleLowConfidence, confValueOf, if_neg h3, if_pos hlt]
    · simp only [handleLowConfidence, confValueOf, if_neg h3, if_pos hlt]
      exact pyChoice_mem _ _ _ (by simp [suggestResponses])

/-- Witness for claim C2: confidence 0.29 yields `clarify`, 0.49 yields
`suggest`. -/
theorem claim_C2_witness :
    (handleLowConfidence (("when?").toList) (ConfArg.num 0.29) 0).action = "clarify" ∧
    (handleLowConfidence (("when?").toList) (ConfArg.num 0.49) 1).action = "suggest" :=
  ⟨((claim_C2_confidence_bands (("when?").toList) 0.29 0).1 (by norm_num)).1,
   ((claim_C2_confidence_bands (("when?").toList) 0.49 1).2 (by norm_num) (by norm_num)).1⟩

/-! ## Claim C8: missing rules file -/

/-- Claim C8 evaluated on the failing input: with the rules file absent,
`AdvancedRuleEngine.__init__` reaches `self._create_default_rules()`, a
method defined nowhere in the repository, so construction raises
`AttributeError` instead of falling back to a default greeting rule. -/
theorem claim_C8_missing_file_raises :
    ∀ loadOutcome, ruleEngineInitRules false loadOutcome =
      Except.error attributeErrorCreateDefaults := by
  intro loadOutcome
  rfl

/-! ## Claims C10 and C6: rule-match confidence -/

theorem clamp01_ge_of {x c : ℚ} (hc : c ≤ x) (h1 : c ≤ 1) : c ≤ min (max x 0) 1 :=
  le_min (hc.trans (le_max_left x 0)) h1

theorem min_mul_nonneg_02 (n : Nat) : (0 : ℚ) ≤ min ((n : ℚ) * 0.05) 0.2 :=
  le_min (by positivity) (by norm_num)

theorem min_mul_nonneg_015 (n : Nat) : (0 : ℚ) ≤ min ((n : ℚ) * 0.05) 0.15 :=
  le_min (by positivity) (by norm_num)

/-- The confidence computation starts from base 0.7 and only ever adds
non-negative boosts before clamping, so its result is at least 0.7. -/
theorem calcRuleConfidence_ge (rule : RuleView) (text : List Char) (ents : Option Nat) :
    (0.7 : ℚ) ≤ calcRuleConfidence rule text ents := by
  obtain ⟨pat, kws⟩ := rule
  simp only [calcRuleConfidence]
  apply clamp01_ge_of _ (by norm_num)
  rcases pat with _ | p
  · rcases ents with _ | n <;> rcases kws with _ | l <;> dsimp only <;>
      (try split_ifs) <;>
      (repeat' refine le_add_of_le_of_nonneg ?_ (by positivity)) <;> norm_num
  · rcases p with s | rp <;> rcases ents with _ | n <;> rcases kws with _ | l <;>
      dsimp only <;> (try split_ifs) <;>
      (repeat' refine le_add_of_le_of_nonneg ?_ (by positivity)) <;> norm_num

/-- Through `match`, the rule handed to the confidence computation stores
a compiled regex and no keywords, so the only boost left is the one fed
by the context dict. -/
theorem mkMatchInfo_confidence (r : CompiledRule) (text : List Char) (ctx : Option CtxView) :
    (mkMatchInfo r text ctx).confidence =
      min (max ((0.7 : ℚ) + ctxEntityBoost ctx) 0) 1 := by
  rcases ctx with _ | c
  · simp [mkMatchInfo, calcRuleConfidence, patTruthy, ctxEntityBoost]
  · by_cases h : c.size = 0
    · simp [mkMatchInfo, calcRuleConfidence, patTruthy, ctxEntityBoost, h]
    · simp [mkMatchInfo, calcRuleConfidence, patTruthy, ctxEntityBoost, h]

theorem pyMaxBy_mem {α : Type} (f : α → ℚ) : ∀ (a : α) (l : List α), pyMaxBy f a l ∈ a :: l
  | a, [] => List.mem_cons_self a []
  | a, b :: l => by
    simp only [pyMaxBy]
    split_ifs with h
    · exact List.mem_cons_of_mem a (pyMaxBy_mem f b l)
    · rcases List.mem_cons.1 (pyMaxBy_mem f a l) with h1 | h1
      · rw [h1]
        exact List.mem_cons_self _ _
      · exact List.mem_cons_of_mem a (List.mem_cons_of_mem b h1)

/-- Python `max` keeps the first-encountered element among ties; with all
keys equal it returns the head. -/
theorem pyMaxBy_eq_head_of_const {α : Type} (f : α → ℚ) (cst : ℚ) :
    ∀ (a : α) (l : List α), f a = cst → (∀ x ∈ l, f x = cst) → pyMaxBy f a l = a
  | _, [], _, _ => rfl
  | a, b :: l, ha, hl => by
    have hb : f b = f a := by rw [ha, hl b (List.mem_cons_self b l)]
    simp only [pyMaxBy]
    rw [if_neg (by rw [hb]; exact lt_irrefl _)]
    exact pyMaxBy_eq_head_of_const f cst a l ha (fun x hx => hl x (List.mem_cons_of_mem b hx))

theorem mem_matchCandidates {rules : List CompiledRule} {text : List Char} {nowHour : Nat}
    {ctx : Option CtxView} {m : MatchInfo}
    (h : m ∈ matchCandidates rules text nowHour ctx) :
    ∃ r ∈ rules, m = mkMatchInfo r text ctx := by
  rw [matchCandidates, List.mem_filterMap] at h
  obtain ⟨r, hr, heq⟩ := h
  refine ⟨r, hr, ?_⟩
  by_cases hc : (r.pattern.searchHit text && checkConditions [] nowHour ctx) = true
  · rw [if_pos hc] at heq
    exact (Option.some.inj heq).symm
  · rw [if_neg hc] at heq
    cases heq

/-- The head of the candidate list is built from the first rule whose
pattern search succeeds. -/
theorem matchCandidates_cons_find :
    ∀ (rules : List CompiledRule) (text : List Char) (nowHour : Nat) (ctx : Option CtxView)
      (m : MatchInfo) (ms : List MatchInfo),
      matchCandidates rules text nowHour ctx = m :: ms →
      ∃ r, (rules.find?
          (fun r => r.pattern.searchHit text && checkConditions [] nowHour ctx)) = some r ∧
        m = mkMatchInfo r text ctx
  | [], _, _, _, _, _, h => by simp [matchCandidates] at h
  | r :: rs, text, nowHour, ctx, m, ms, h => by
    rw [matchCandidates, List.filterMap_cons] at h
    by_cases hc : (r.pattern.searchHit text && checkConditions [] nowHour ctx) = true
    · rw [if_pos hc] at h
      dsimp only at h
      refine ⟨r, ?_, (List.cons.inj h).1.symm⟩
      simp only [List.find?, hc]
    · rw [if_neg hc] at h
      dsimp only at h
      have hc2 : (r.pattern.searchHit text && checkConditions [] nowHour ctx) = false := by
        rw [← Bool.not_eq_true]
        exact hc
      obtain ⟨r0, hfind, hm⟩ := matchCandidates_cons_find rs text nowHour ctx m ms h
      refine ⟨r0, ?_, hm⟩
      simp only [List.find?, hc2]
      exact hfind

/-- Claim C10 (implicit): whenever `AdvancedRuleEngine.match` returns a
non-null candidate, that candidate has confidence at least 0.7. -/
theorem claim_C10_match_confidence_ge :
    ∀ (rules : List CompiledRule) (text : List Char) (nowHour : Nat)
      (ctx : Option CtxView) (out : RuleMatchOut),
      ruleMatch rules text nowHour ctx = some out → (0.7 : ℚ) ≤ out.confidence := by
  intro rules text nowHour ctx out h
  unfold ruleMatch at h
  cases hmc : matchCandidates rules text nowHour ctx with
  | nil => rw [hmc] at h; cases h
  | cons m ms =>
    rw [hmc] at h
    dsimp only at h
    have hout := (Option.some.inj h).symm
    have hbest : pyMaxBy (·.confidence) m ms ∈ matchCandidates rules text nowHour ctx := by
      rw [hmc]; exact pyMaxBy_mem _ m ms
    obtain ⟨r, _, hEq⟩ := mem_matchCandidates hbest
    rw [hout]
    show (0.7 : ℚ) ≤ (pyMaxBy (·.confidence) m ms).confidence
    rw [hEq]
    show (0.7 : ℚ) ≤ calcRuleConfidence ⟨some (PatField.pregex r.pattern), none⟩ text
      (Option.map (fun c => c.size) ctx)
    exact calcRuleConfidence_ge _ _ _

theorem crThreeTok_search : crThreeTok.pattern.searchHit crText = true := by decide

theorem crThreeTok_candidates :
    matchCandidates [crThreeTok] crText 10 none = [mkMatchInfo crThreeTok crText none] := by
  unfold matchCandidates
  simp [crThreeTok_search, checkConditions]

theorem crThreeTok_ruleMatch :
    ruleMatch [crThreeTok] crText 10 none =
      some
        { rtype := "rule_based"
          confidence := (mkMatchInfo crThreeTok crText none).confidence
          responseData := mkMatchInfo crThreeTok crText none
          source := "rule_engine"
          matchedRule := (mkMatchInfo crThreeTok crText none).ruleId } := by
  unfold ruleMatch
  rw [crThreeTok_candidates]
  rfl

/-- Witness for claim C10 at a concrete rule set and text. -/
theorem claim_C10_witness :
    (0.7 : ℚ) ≤ ((ruleMatch [crThreeTok] crText 10 none).getD
      ⟨"", 0, ⟨[], [], [], 0, [], 0⟩, "", []⟩).confidence := by
  rw [crThreeTok_ruleMatch]
  exact claim_C10_match_confidence_ge [crThreeTok] crText 10 none _ crThreeTok_ruleMatch

/-- Counterexample to claim C6: a matching rule whose pattern source has
three whitespace-separated tokens and no wildcard should, per the claim,
score 0.7 + 0.1 + 0.1 = 0.9; `match` computes 0.7 because the compiled
rule stores a compiled regex (which fails the `isinstance(pattern, str)`
test) and carries no keywords, and the entities slot receives the
(absent) context. -/
theorem claim_C6_counterexample :
    ((ruleMatch [crThreeTok] crText 10 none).map (fun o => o.confidence)) =
        some (0.7 : ℚ) ∧
      specRuleMatchConfidence crThreeTok.pattern.src 0 0 = (0.9 : ℚ) ∧
      (0.7 : ℚ) ≠ (0.9 : ℚ) := by
  have hconf : (mkMatchInfo crThreeTok crText none).confidence = 0.7 := by
    rw [mkMatchInfo_confidence]
    norm_num [ctxEntityBoost]
  have ht : wsTokenCount crThreeTok.pattern.src = 3 := by decide
  have hstar : crThreeTok.pattern.src.contains ('*') = false := by decide
  refine ⟨?_, ?_, by norm_num⟩
  · rw [crThreeTok_ruleMatch]
    simp [hconf]
  · simp only [specRuleMatchConfidence, ht, hstar]
    norm_num

/-- Claim C6 (amended): through `match`, the pattern-specificity and
keyword boosts can never apply (compiled rules store a compiled regex
object and drop the keywords key), so every eligible match scores
`clamp(0.7 + entity boost from the context argument)`; all candidates
therefore tie and the returned match is the first-encountered eligible
rule. -/
theorem claim_C6_amended :
    ∀ (rules : List CompiledRule) (text : List Char) (nowHour : Nat)
      (ctx : Option CtxView) (out : RuleMatchOut),
      ruleMatch rules text nowHour ctx = some out →
      out.confidence = min (max ((0.7 : ℚ) + ctxEntityBoost ctx) 0) 1 ∧
      ∃ r, (rules.find?
          (fun r => r.pattern.searchHit text && checkConditions [] nowHour ctx)) = some r ∧
        out.responseData = mkMatchInfo r text ctx ∧ out.matchedRule = r.id := by
  intro rules text nowHour ctx out h
  unfold ruleMatch at h
  cases hmc : matchCandidates rules text nowHour ctx with
  | nil => rw [hmc] at h; cases h
  | cons m ms =>
    rw [hmc] at h
    dsimp only at h
    have hout := (Option.some.inj h).symm
    have hconst : ∀ x ∈ m :: ms, MatchInfo.confidence x =
        min (max ((0.7 : ℚ) + ctxEntityBoost ctx) 0) 1 := by
      intro x hx
      have hx2 : x ∈ matchCandidates rules text nowHour ctx := by rw [hmc]; exact hx
      obtain ⟨r, _, hEq⟩ := mem_matchCandidates hx2
      rw [hEq, mkMatchInfo_confidence]
    have hhead : pyMaxBy (·.confidence) m ms = m :=
      pyMaxBy_eq_head_of_const _ _ m ms (hconst m (List.mem_cons_self m ms))
        (fun x hx => hconst x (List.mem_cons_of_mem m hx))
    obtain ⟨r, hfind, hm⟩ := matchCandidates_cons_find rules text nowHour ctx m ms hmc
    rw [hout]
    constructor
    · show (pyMaxBy (·.confidence) m ms).confidence = _
      rw [hhead]
      exact hconst m (List.mem_cons_self m ms)
    · refine ⟨r, hfind, ?_, ?_⟩
      · show pyMaxBy (·.confidence) m ms = mkMatchInfo r text ctx
        rw [hhead, hm]
      · show (pyMaxBy (·.confidence) m ms).ruleId = r.id
        rw [hhead, hm, mkMatchInfo]

/-- Witness for the amended claim C6 at a concrete rule set and text. -/
theorem claim_C6_amended_witness :
    ((ruleMatch [crThreeTok] crText 10 none).getD
        ⟨"", 0, ⟨[], [], [], 0, [], 0⟩, "", []⟩).confidence =
      min (max ((0.7 : ℚ) + ctxEntityBoost none) 0) 1 := by
  rw [crThreeTok_ruleMatch]
  exact (claim_C6_amended [crThreeTok] crText 10 none _ crThreeTok_ruleMatch).1

/-! ## Claims C1 and C3: strategy selection and failure semantics -/

/-- Claim C1: for every processed message whose extracted confidence is
at least 0.5, the strategy is selected by the ordered policy — a rule
candidate with confidence above 0.9 gives `rule_based`; otherwise NLP
confidence above 0.7 gives `nlp_based`; otherwise `clarification`. -/
theorem claim_C1_strategy_policy :
    ∀ (message : List Char) (nlp : NlpOut) (rr : Option RuleMatchOut)
      (ig : Except PyExc (List Nat)) (ctx : CtxView) (rnd : Nat),
      (0.5 : ℚ) ≤ nlp.confidence →
      (∀ r, rr = some r → (0.9 : ℚ) < r.confidence →
        (processMessage message (Except.ok nlp) (Except.ok rr) ig ctx rnd).map
          PMOut.processingMethod = Except.ok ("rule_based")) ∧
      ((∀ r, rr = some r → r.confidence ≤ 0.9) → (0.7 : ℚ) < nlp.confidence →
        (processMessage message (Except.ok nlp) (Except.ok rr) ig ctx rnd).map
          PMOut.processingMethod = Except.ok ("nlp_based")) ∧
      ((∀ r, rr = some r → r.confidence ≤ 0.9) → nlp.confidence ≤ 0.7 →
        (processMessage message (Except.ok nlp) (Except.ok rr) ig ctx rnd).map
          PMOut.processingMethod = Except.ok ("clarification")) := by
  intro message nlp rr ig ctx rnd hconf
  have hnl : ¬nlp.confidence < 0.5 := not_lt.2 hconf
  refine ⟨?_, ?_, ?_⟩
  · intro r hrr hgt
    subst hrr
    have hdec : decide (r.confidence > 0.9) = true := decide_eq_true hgt
    simp [processMessage, hnl, hdec, PMOut.processingMethod, Except.map]
  · intro hno h7
    rcases rr with _ | r
    · simp [processMessage, hnl, PMOut.processingMethod, Except.map, h7]
    · have hdec : decide (r.confidence > 0.9) = false :=
        decide_eq_false (not_lt.2 (hno r rfl))
      simp [processMessage, hnl, hdec, PMOut.processingMethod, Except.map, h7]
  · intro hno h7
    have h7n : ¬nlp.confidence > 0.7 := not_lt.2 h7
    rcases rr with _ | r
    · simp [processMessage, hnl, h7n, PMOut.processingMethod, Except.map]
    · have hdec : decide (r.confidence > 0.9) = false :=
        decide_eq_false (not_lt.2 (hno r rfl))
      simp [processMessage, hnl, hdec, h7n, PMOut.processingMethod, Except.map]

/-- Witness for claim C1: a rule candidate at confidence 0.95 with NLP
confidence 0.8 selects the rule-based strategy. -/
theorem claim_C1_witness :
    (processMessage (("hi").toList) (Except.ok ⟨("library_hours"), 0.8, []⟩)
        (Except.ok (some ⟨("rule_based"), 0.95, ⟨[], [], [], 1, [], 0.95⟩,
          ("rule_engine"), []⟩))
        (Except.ok []) ⟨0, none, [], none, none⟩ 0).map PMOut.processingMethod =
      Except.ok ("rule_based") :=
  ((claim_C1_strategy_policy _ _ _ _ _ _ (by norm_num)).1 _ rfl (by norm_num))

/-- Counterexample to claim C3: an exception raised during extraction
propagates out of `process_message` unchanged instead of being converted
into a safe default reply with confidence 0.0 and a processing method of
`error`. -/
theorem claim_C3_counterexample :
    processMessage (("hi").toList) (Except.error ⟨("ValueError"), ("boom")⟩)
        (Except.ok none) (Except.ok []) ⟨0, none, [], none, none⟩ 0 =
      Except.error ⟨("ValueError"), ("boom")⟩ := rfl

/-- Claim C3 (amended): only `ResponseGenerator.generate` installs a
handler — an exception inside generation is replaced by the fixed
fallback reply and never escapes `generate`; exceptions raised during
extraction or rule matching propagate out of `process_message`
unchanged, and no confidence-0.0 / processing-method-`error` payload is
produced anywhere. -/
theorem claim_C3_amended :
    (∀ e, rgGenerate (Except.error e) = generateFallbackReply) ∧
    (∀ (msg : List Char) (e : PyExc) (rrw : Except PyExc (Option RuleMatchOut))
      (ig : Except PyExc (List Nat)) (ctx : CtxView) (rnd : Nat),
      processMessage msg (Except.error e) rrw ig ctx rnd = Except.error e) ∧
    (∀ (msg : List Char) (nlp : NlpOut) (e : PyExc) (ig : Except PyExc (List Nat))
      (ctx : CtxView) (rnd : Nat), (0.5 : ℚ) ≤ nlp.confidence →
      processMessage msg (Except.ok nlp) (Except.error e) ig ctx rnd = Except.error e) := by
  refine ⟨fun e => rfl, fun msg e rrw ig ctx rnd => rfl, ?_⟩
  intro msg nlp e ig ctx rnd hconf
  have hnl : ¬nlp.confidence < 0.5 := not_lt.2 hconf
  simp [processMessage, hnl]

/-- Witness for the amended claim C3: a rule-matching exception at
extraction confidence 0.8 propagates. -/
theorem claim_C3_amended_witness :
    processMessage (("hi").toList) (Except.ok ⟨("greeting"), 0.8, []⟩)
        (Except.error ⟨("ConnectionError"), ("redis down")⟩) (Except.ok [])
        ⟨0, none, [], none, none⟩ 0 =
      Except.error ⟨("ConnectionError"), ("redis down")⟩ :=
  claim_C3_amended.2.2 (("hi").toList) ⟨("greeting"), 0.8, []⟩
    ⟨("ConnectionError"), ("redis down")⟩ (Except.ok []) ⟨0, none, [], none, none⟩ 0
    (by norm_num)

end LibChat
